import Mathlib

/-!
Verification of the polaris principal (user) store against its specification.

The definitions below are a shallow embedding of two Go source files:
* `store/sqldb/user.go` — the transactional principal store (AddUser,
  UpdateUser, DeleteUser, GetUser, GetUserByName, GetUserByIDS, GetUsers /
  listUsers / listGroupUsers, GetUsersForCache, createDefaultStrategy,
  cleanLinkStrategy, fetchRown2User, cleanInValidUser, checkAffectedRows);
* the `defaultauth` validator file (checkName, checkPassword, checkOwner,
  StoreCode2APICode).

SQL statements are embedded as pure functions over explicit table states
(lists of rows); the Go `database/sql` error plumbing becomes `Except`;
Go maps become functions `String → Option String`.
-/

namespace Polaris

/-- Storage status codes used by the embedded operations
(`store.EmptyParamsErr`, `store.AffectedRowsNotMatch`). -/
inductive StoreCode where
  | emptyParamsErr
  | affectedRowsNotMatch
  deriving DecidableEq, Repr

/-! ## Validator (`defaultauth` package) -/

/-- Character classes used by `checkPassword` (the strings written into the
`flag` slice in the Go source). -/
inductive CharClass where
  | number
  | lowerCaseLetter
  | upperCaseLetter
  | specialCharacter
  | otherCharacter
  deriving DecidableEq, Repr, BEq

/-- The fixed special-character set `spcChar := "!@#$%&*"` of `checkPassword`. -/
def spcChar : String := "!@#$%&*"

/-- Per-character classification of `checkPassword`: digit, lower, upper,
member of `spcChar`, otherwise other.  (The Go code uses the `unicode`
predicates; this embedding realises them on the ASCII range, which is where
every character of the fixed special set and of the claims lives.) -/
def classifyChar (c : Char) : CharClass :=
  if c.isDigit then .number
  else if c.isLower then .lowerCaseLetter
  else if c.isUpper then .upperCaseLetter
  else if spcChar.contains c then .specialCharacter
  else .otherCharacter

/-- The distinct character classes present in a password: the per-rune
`flag` slice of the Go source, deduplicated like its `cpx` set. -/
def passwordClasses (p : String) : List CharClass :=
  (p.toList.map classifyChar).eraseDups

/-- Function `checkPassword(password)` from the `defaultauth` validator: `nil` and
empty are rejected, the byte length (`len` in Go counts bytes) must be in
[6,17], and at least two distinct character classes must occur. -/
def checkPassword (password : Option String) : Except String Unit :=
  match password with
  | none => .error "nil"
  | some p =>
    if p = "" then .error "empty"
    else if p.utf8ByteSize < 6 ∨ 17 < p.utf8ByteSize then
      .error "password len need 6 ~ 17"
    else if (passwordClasses p).length < 2 then
      .error "password security is so low"
    else .ok ()

/-- The character class of the Go regular expression
`^[0-9A-Za-z-.:_]+$` used by `checkName` (the `-` between `z` and `.`
denotes the two-character range `-`..`.`, so the accepted alphabet is
digits, Latin letters, `-`, `.`, `:` and `_`). -/
def nameCharAllowed (c : Char) : Bool :=
  (('0' ≤ c && c ≤ '9') || ('A' ≤ c && c ≤ 'Z') || ('a' ≤ c && c ≤ 'z')
    || c = '-' || c = '.' || c = ':' || c = '_')

/-- Function `checkName(name)` from the `defaultauth` validator: `nil`, empty, the
reserved administrator name `polariadmin`, and any name with a character
outside the regex class are rejected (`^...+$` on a non-empty string is
exactly "every character is in the class"). -/
def checkName (name : Option String) : Except String Unit :=
  match name with
  | none => .error "nil"
  | some n =>
    if n = "" then .error "empty"
    else if n = "polariadmin" then .error "illegal username"
    else if n.toList.all nameCharAllowed = true then .ok ()
    else .error "name contains invalid character"

/-! ## Principal (user) table rows and entities (`store/sqldb/user.go`) -/

/-- A row of the `user` table: the columns the source reads and writes
(`flag` is the soft-delete flag, 0 = active, 1 = soft-deleted;
`token_enable` is stored as 0/1; timestamps as epoch seconds). -/
structure UserRow where
  id : String
  name : String
  password : String
  owner : String
  source : String
  token : String
  comment : String
  flag : Nat
  tokenEnable : Nat
  userType : Nat
  ctime : Nat
  mtime : Nat
  deriving DecidableEq, Repr

/-- Entity `model.User` as populated by the row scanners; Go's `new(model.User)`
zero value gives the defaults for fields a scanner does not set. -/
structure User where
  id : String := ""
  name : String := ""
  password : String := ""
  owner : String := ""
  source : String := ""
  token : String := ""
  comment : String := ""
  tokenEnable : Bool := false
  userType : Nat := 0
  valid : Bool := false
  ctime : Nat := 0
  mtime : Nat := 0
  deriving DecidableEq, Repr

/-- Scanner `fetchRown2User` (user.go lines 561-579): scans the full column list of
the list queries; `Valid := flag == 0`, `TokenEnable := token_enable == 1`. -/
def fetchRown2User (r : UserRow) : User :=
  { id := r.id, name := r.name, password := r.password, owner := r.owner,
    source := r.source, token := r.token,
    tokenEnable := r.tokenEnable == 1, userType := r.userType,
    valid := r.flag == 0, ctime := r.ctime, mtime := r.mtime }

/-- The row scan of `GetUser` / `GetUserByName`: these single-row queries
select only id, name, password, owner, source, token, token_enable,
user_type (no timestamps, no flag, no comment). -/
def scanBasicUser (r : UserRow) : User :=
  { id := r.id, name := r.name, password := r.password, owner := r.owner,
    source := r.source, token := r.token,
    tokenEnable := r.tokenEnable == 1, userType := r.userType }

/-! ## Read operations -/

/-- WHERE clause of `GetUser` (user.go lines 212-218):
`u.flag = 0 AND u.name != 'polariadmin' AND u.id = ?`. -/
def getUserWhere (id : String) (r : UserRow) : Bool :=
  r.flag == 0 && r.name != "polariadmin" && r.id == id

/-- Read `GetUser` (user.go lines 208-236): single-row lookup; `sql.ErrNoRows`
becomes a nil result with nil error (`.ok none`). -/
def GetUser (db : List UserRow) (id : String) : Except StoreCode (Option User) :=
  match db.filter (getUserWhere id) with
  | [] => .ok none
  | r :: _ => .ok (some (scanBasicUser r))

/-- WHERE clause of `GetUserByName` (user.go lines 240-248):
`u.flag = 0 AND u.name != 'polariadmin' AND u.name = ? AND u.owner = ?`. -/
def getUserByNameWhere (name ownerId : String) (r : UserRow) : Bool :=
  r.flag == 0 && r.name != "polariadmin" && r.name == name && r.owner == ownerId

/-- Read `GetUserByName` (user.go lines 239-268). -/
def GetUserByName (db : List UserRow) (name ownerId : String) :
    Except StoreCode (Option User) :=
  match db.filter (getUserByNameWhere name ownerId) with
  | [] => .ok none
  | r :: _ => .ok (some (scanBasicUser r))

/-- WHERE clause of `GetUserByIDS` (user.go lines 277-292):
`u.flag = 0 AND u.name != 'polarisadmin' AND u.id IN (...)` — note the
excluded literal here is `polarisadmin`, with an `s`. -/
def getUserByIDSWhere (ids : List String) (r : UserRow) : Bool :=
  r.flag == 0 && r.name != "polarisadmin" && ids.contains r.id

/-- Read `GetUserByIDS` (user.go lines 271-316): empty input returns `nil, nil`
(embedded as `.ok []`); otherwise the batch query mapped by fetchRown2User. -/
def GetUserByIDS (db : List UserRow) (ids : List String) :
    Except StoreCode (List User) :=
  if ids.isEmpty then .ok []
  else .ok ((db.filter (getUserByIDSWhere ids)).map fetchRown2User)

/-- Insertion step of the `ORDER BY mtime` sort used by the page queries. -/
def insertByMtimeKey {α : Type} (key : α → Nat) (r : α) : List α → List α
  | [] => [r]
  | x :: xs => if key r ≤ key x then r :: x :: xs else x :: insertByMtimeKey key r xs

/-- The `ORDER BY mtime` of the page queries, as an insertion sort. -/
def sortByMtimeKey {α : Type} (key : α → Nat) : List α → List α
  | [] => []
  | x :: xs => insertByMtimeKey key x (sortByMtimeKey key xs)

/-- The `LIMIT ? , ?` pagination: skip `offset` rows, return at most `limit`. -/
def pagin {α : Type} (offset limit : Nat) (l : List α) : List α :=
  (l.drop offset).take limit

/-- Read `listUsers` (user.go lines 330-385).  The caller-supplied filter suffix
(name equality/wildcard, the owner OR-predicate, other attribute equality)
is abstracted as the predicate `extra`, appended identically to both
queries.  Faithful to the source, the count query's base WHERE is only
`flag = 0` while the page query's is `flag = 0 AND name != 'polarisadmin'`. -/
def listUsers (db : List UserRow) (extra : UserRow → Bool)
    (offset limit : Nat) : Nat × List User :=
  let count := (db.filter (fun r => r.flag == 0 && extra r)).length
  let page := pagin offset limit (sortByMtimeKey UserRow.mtime
      (db.filter (fun r => r.flag == 0 && r.name != "polarisadmin" && extra r)))
  (count, page.map fetchRown2User)

/-- A row of the `user_group_relation` table. -/
structure GroupRelationRow where
  userId : String
  groupId : String
  flag : Nat
  deriving DecidableEq, Repr

/-- The join of `listGroupUsers` (user.go lines 396-409): the LEFT JOIN's ON
condition `ug.user_id = u.id AND u.flag = 0 AND ug.flag = 0` combined with
the WHERE filter `u.name != 'polarisadmin'` (which drops the NULL-extended
rows, so the join is effectively inner). -/
def listGroupUsersJoin (users : List UserRow) (rels : List GroupRelationRow) :
    List (GroupRelationRow × UserRow) :=
  rels.flatMap (fun ug =>
    (users.filter (fun u =>
        ug.userId == u.id && u.flag == 0 && ug.flag == 0
          && u.name != "polarisadmin")).map (fun u => (ug, u)))

/-- Read `listGroupUsers` (user.go lines 388-442), with the rewritten filters
(group id, user id/name, group name — equality or wildcard) abstracted as
the predicate `extra` over the joined row pair. -/
def listGroupUsers (users : List UserRow) (rels : List GroupRelationRow)
    (extra : GroupRelationRow × UserRow → Bool) (offset limit : Nat) :
    Nat × List User :=
  let matched := (listGroupUsersJoin users rels).filter extra
  let page := pagin offset limit
      (sortByMtimeKey (fun p => p.2.mtime) matched)
  (matched.length, page.map (fun p => fetchRown2User p.2))

/-- Read `GetUsersForCache` (user.go lines 445-467): no WHERE clause at all when
`firstUpdate`; otherwise `WHERE u.mtime >= ?` against the watermark.  There
is no flag predicate and no reserved-name predicate in either branch. -/
def GetUsersForCache (db : List UserRow) (mtime : Nat) (firstUpdate : Bool) :
    List User :=
  let rows := if firstUpdate then db else db.filter (fun r => decide (mtime ≤ r.mtime))
  rows.map fetchRown2User

/-! ## GetUsers dispatch and the filters map (C10) -/

/-- A Go `map[string]string`, modelled by its lookup function. -/
def Filters : Type := String → Option String

/-- Assignment `m[k] = v` on a Go map. -/
def filtersInsert (m : Filters) (k v : String) : Filters :=
  fun x => if x = k then some v else m x

/-- Deletion `delete(m, k)` on a Go map. -/
def filtersDelete (m : Filters) (k : String) : Filters :=
  fun x => if x = k then none else m x

/-- Constant `GroupIDAttribute` is declared outside the given source file; its value
is pinned to `"group_id"` by the in-source dispatch guard
`filters["group_id"]` of GetUsers (line 321) together with listGroupUsers'
presence check of `filters[GroupIDAttribute]` on the same map, and by the
alias entry `GroupIDAttribute: "group_id"` in userAttributeMapping. -/
def GroupIDAttribute : String := "group_id"

/-- The destructive filter rewrite at the top of `listGroupUsers` (user.go
lines 389-393): `filters["ug.group_id"] = filters[GroupIDAttribute]` then
`delete(filters, GroupIDAttribute)`; missing key is an EmptyParamsErr.
In-place mutation of the Go map becomes explicit state passing. -/
def listGroupUsersFilterRewrite (filters : Filters) : Except StoreCode Filters :=
  match filters GroupIDAttribute with
  | none => .error .emptyParamsErr
  | some v => .ok (filtersDelete (filtersInsert filters "ug.group_id" v) GroupIDAttribute)

/-- The effect of `GetUsers` (user.go lines 319-327) on the caller's filters
map: with `"group_id"` present it dispatches to listGroupUsers, whose
rewrite mutates the map; otherwise listUsers leaves the map untouched. -/
def GetUsersFilterEffect (filters : Filters) : Filters :=
  if (filters "group_id").isSome then
    match listGroupUsersFilterRewrite filters with
    | .ok f => f
    | .error _ => filters
  else filters

/-! ## AddUser and the retry wrapper (C2) -/

/-- The two store-level steps `AddUser` (user.go lines 56-72) performs after
its empty-params check: the stale-name reclamation
(`u.cleanInValidUser(user.Name)`, a hard DELETE of soft-deleted rows with
the same name, lines 581-591) and the transactional body `u.addUser`
(INSERT + createDefaultStrategy + commit, lines 74-111). -/
inductive AddStep where
  | cleanInValidUser
  | addUserTx
  deriving DecidableEq, BEq, Repr

/-- Modelled from the spec: the generic `RetryTransaction` combinator is not
among the given sources; per the spec it is a bounded retry loop that
"re-executes the entire transaction body on transient/retryable failures".
The environment is abstracted by the number of transient failures before
the body finally succeeds; the trace records one copy of the body's steps
per attempt. -/
def retryTransactionTrace (body : List AddStep) : Nat → List AddStep
  | 0 => body
  | n + 1 => body ++ retryTransactionTrace body n

/-- The step trace of `AddUser` on a request that passes the empty-params
check, in source order: `cleanInValidUser` is invoked once, sequentially
before `RetryTransaction`, and only `u.addUser` is the retried body. -/
def addUserTrace (transientFailures : Nat) : List AddStep :=
  AddStep.cleanInValidUser :: retryTransactionTrace [AddStep.addUserTx] transientFailures

/-! ## updateUser and checkAffectedRows (C3, C4) -/

/-- A `sql.Result` as the Go code sees it: the driver-reported
affected-row count. -/
structure SqlResult where
  rowsAffected : Nat
  deriving DecidableEq, Repr

/-- Helper `checkAffectedRows` (user.go lines 593-605): compares the reported
affected-row count with the expected count; a mismatch is the
`store.AffectedRowsNotMatch` status error. -/
def checkAffectedRows (result : SqlResult) (count : Nat) : Except StoreCode Unit :=
  if result.rowsAffected = count then .ok ()
  else .error .affectedRowsNotMatch

/-- How `updateUser` handles of the UPDATE's Exec result (user.go line 143):
the `sql.Result` is bound to `_` and discarded; after a successful Exec the
transaction commits and nil is returned, whatever the affected-row count
was.  `checkAffectedRows` is never invoked by `updateUser`. -/
def updateUserResultHandling (result : SqlResult) : Except StoreCode Unit :=
  let _ := result
  .ok ()

/-- The per-row effect of `updateUser`'s single statement (user.go line 141):
`UPDATE user SET password = ?, token = ?, comment = ?, token_enable = ?
WHERE id = ? AND flag = 0`. -/
def applyUpdateUser (user : User) (r : UserRow) : UserRow :=
  if r.id = user.id ∧ r.flag = 0 then
    { r with password := user.password, token := user.token,
             comment := user.comment,
             tokenEnable := if user.tokenEnable then 1 else 0 }
  else r

/-- Write `updateUser` (user.go lines 127-161) over a user-table state: executes
the UPDATE (whose driver result carries the matched-row count) and commits;
the result goes through `updateUserResultHandling`, i.e. is discarded. -/
def updateUser (db : List UserRow) (user : User) : Except StoreCode (List UserRow) :=
  let result : SqlResult :=
    ⟨(db.filter (fun r => r.id == user.id && r.flag == 0)).length⟩
  match updateUserResultHandling result with
  | .error e => .error e
  | .ok () => .ok (db.map (applyUpdateUser user))

/-- The update behaviour claim C3 describes, stated from the spec's words
for comparison with `updateUser`: when the id is known to exist (knowledge
established outside updateUser, e.g. by a prior read), the affected-row
count of the UPDATE is checked against the expected count 1 via
checkAffectedRows; zero rows matching only the flag predicate stays a
no-op. -/
def updateUserPerClaim (db : List UserRow) (user : User)
    (idKnownToExist : Bool) : Except StoreCode (List UserRow) :=
  let result : SqlResult :=
    ⟨(db.filter (fun r => r.id == user.id && r.flag == 0)).length⟩
  if idKnownToExist then
    match checkAffectedRows result 1 with
    | .error e => .error e
    | .ok () => .ok (db.map (applyUpdateUser user))
  else .ok (db.map (applyUpdateUser user))

/-! ## deleteUser, createDefaultStrategy, cleanLinkStrategy (C5) -/

/-- Enum `model.PrincipalType`: the two principal kinds `model.PrincipalUser`
and `model.PrincipalUserGroup`. -/
inductive PrincipalType where
  | user
  | userGroup
  deriving DecidableEq, BEq, Repr

/-- Modelled from the spec: `model.BuildDefaultStrategyName` is not among
the given sources; the spec states the default strategy name is
"deterministically derived as `default-strategy-<principalID>` or
group-scoped equivalent", keyed by (principalID, principalKind), so the two
kinds yield distinct names for the same principal id. -/
def buildDefaultStrategyName (id : String) : PrincipalType → String
  | .user => "default-strategy-" ++ id
  | .userGroup => "default-strategy-group-" ++ id

/-- A row of the `auth_strategy` table (the columns the claims touch: id,
deterministic name, soft-delete flag; action/owner/comment/default/revision
are not read by any embedded operation and are omitted). -/
structure StrategyRow where
  id : String
  name : String
  flag : Nat
  deriving DecidableEq, Repr

/-- A row of the `auth_strategy_resource` table (a resource binding). -/
structure StrategyResourceRow where
  strategyId : String
  resId : String
  deriving DecidableEq, Repr

/-- A row of the `auth_principal` association table. -/
structure PrincipalRow where
  strategyId : String
  principalId : String
  principalRole : PrincipalType
  deriving DecidableEq, Repr

/-- The tables touched by deleteUser's transaction. -/
structure Db where
  users : List UserRow
  groupRelations : List GroupRelationRow
  strategies : List StrategyRow
  strategyResources : List StrategyResourceRow
  principals : List PrincipalRow
  deriving DecidableEq, Repr

/-- Provisioner `createDefaultStrategy` (user.go lines 492-523): inside the caller's
transaction, inserts the strategy row named
`BuildDefaultStrategyName(id, role)` with flag 0 and one principal-binding
row (strategy id, principal id, role).  The generated UUID is a parameter. -/
def createDefaultStrategy (role : PrincipalType) (id : String)
    (strategyId : String) (db : Db) : Db :=
  { db with
    strategies := db.strategies ++ [⟨strategyId, buildDefaultStrategyName id role, 0⟩],
    principals := db.principals ++ [⟨strategyId, id, role⟩] }

/-- Purge `cleanLinkStrategy` (user.go lines 526-559).  The `role` parameter is
accepted but never used: all three name-matched statements build the
*group*-kind default strategy name (`model.PrincipalUserGroup`), and the
final DELETE also filters on the group role.  The scalar subquery
`(SELECT id FROM auth_strategy WHERE name = ?)` is the first strategy row
with that name (NULL, matching nothing, when absent).  The final
statement's column is spelled `principa_id` in the SQL string; it is
embedded as the principal-id column. -/
def cleanLinkStrategy (role : PrincipalType) (id : String) (db : Db) : Db :=
  let _ := role
  let gname := buildDefaultStrategyName id PrincipalType.userGroup
  let strategies1 :=
    db.strategies.map (fun s => if s.name = gname then { s with flag := 1 } else s)
  let db1 := { db with strategies := strategies1 }
  let sid := (db1.strategies.find? (fun s => s.name == gname)).map StrategyRow.id
  let resources2 :=
    db1.strategyResources.filter (fun r => !(some r.strategyId == sid))
  let db2 := { db1 with strategyResources := resources2 }
  let principals3 :=
    db2.principals.filter (fun p => !(some p.strategyId == sid))
  let db3 := { db2 with principals := principals3 }
  let principals4 :=
    db3.principals.filter
      (fun p => !(p.principalId == id && p.principalRole == PrincipalType.userGroup))
  { db3 with principals := principals4 }

/-- Write `deleteUser` (user.go lines 176-206): in one transaction, soft-delete
the user row (`UPDATE user SET flag = 1 WHERE id = ?`), soft-delete its
group relations (`UPDATE user_group_relation SET flag = 1 WHERE
user_id = ?`), then `cleanLinkStrategy(tx, model.PrincipalUser, id)`.
The transaction is embedded as one atomic state transformation. -/
def deleteUser (id : String) (db : Db) : Db :=
  let users1 :=
    db.users.map (fun r => if r.id = id then { r with flag := 1 } else r)
  let db1 := { db with users := users1 }
  let rels2 :=
    db1.groupRelations.map (fun g => if g.userId = id then { g with flag := 1 } else g)
  let db2 := { db1 with groupRelations := rels2 }
  cleanLinkStrategy PrincipalType.user id db2

/-- The read the delete post-condition quantifies over: the resource
bindings of the strategy matched by a deterministic default-strategy name. -/
def getStrategyResourcesByName (db : Db) (name : String) : List StrategyResourceRow :=
  match db.strategies.find? (fun s => s.name == name) with
  | none => []
  | some s => db.strategyResources.filter (fun r => r.strategyId == s.id)

/-! ## Concrete store states used by witnesses and counterexamples -/

/-- A user row carrying exactly the reserved administrator name. -/
def polariadminRow : UserRow :=
  { id := "u1", name := "polariadmin", password := "pw", owner := "o",
    source := "internal", token := "tk", comment := "", flag := 0,
    tokenEnable := 1, userType := 0, ctime := 5, mtime := 5 }

/-- An ordinary active user row. -/
def aliceRow : UserRow :=
  { id := "u2", name := "alice", password := "pw", owner := "o",
    source := "internal", token := "tk", comment := "", flag := 0,
    tokenEnable := 1, userType := 0, ctime := 3, mtime := 3 }

/-- A soft-deleted (tombstoned) user row. -/
def tombstonedRow : UserRow :=
  { id := "u3", name := "bob", password := "pw", owner := "o",
    source := "internal", token := "tk", comment := "", flag := 1,
    tokenEnable := 0, userType := 0, ctime := 1, mtime := 7 }

/-! ## Helper lemmas -/

theorem mem_insertByMtimeKey {α : Type} (key : α → Nat) (r x : α) (l : List α) :
    x ∈ insertByMtimeKey key r l ↔ x = r ∨ x ∈ l := by
  induction l with
  | nil => simp [insertByMtimeKey]
  | cons a as ih =>
    simp only [insertByMtimeKey]
    split
    · exact List.mem_cons
    · rw [List.mem_cons, ih, List.mem_cons]
      tauto

theorem mem_sortByMtimeKey {α : Type} (key : α → Nat) (x : α) (l : List α) :
    x ∈ sortByMtimeKey key l ↔ x ∈ l := by
  induction l with
  | nil => simp [sortByMtimeKey]
  | cons a as ih => simp [sortByMtimeKey, mem_insertByMtimeKey, ih]

theorem mem_of_mem_pagin {α : Type} {x : α} {o n : Nat} {l : List α}
    (h : x ∈ pagin o n l) : x ∈ l :=
  List.mem_of_mem_drop (List.mem_of_mem_take h)

theorem map_eq_self_of_forall {α : Type} (f : α → α) (l : List α)
    (h : ∀ a ∈ l, f a = a) : l.map f = l := by
  induction l with
  | nil => rfl
  | cons a as ih =>
    rw [List.map_cons, h a (List.mem_cons_self a as),
      ih (fun b hb => h b (List.mem_cons_of_mem a hb))]

/-! ## Claim C6 — checkPassword -/

/-- Claim C6: checkPassword fails when the password is absent, empty, or of
byte length outside [6,17], and fails when fewer than two distinct
character classes occur across the string; it accepts "Abc123" and rejects
"aaaaaa" and "ab1". -/
theorem c6_checkPassword :
    (checkPassword none).isOk = false
  ∧ (checkPassword (some "")).isOk = false
  ∧ (∀ p : String, (p.utf8ByteSize < 6 ∨ 17 < p.utf8ByteSize) →
      (checkPassword (some p)).isOk = false)
  ∧ (∀ p : String, (passwordClasses p).length < 2 →
      (checkPassword (some p)).isOk = false)
  ∧ (checkPassword (some "Abc123")).isOk = true
  ∧ (checkPassword (some "aaaaaa")).isOk = false
  ∧ (checkPassword (some "ab1")).isOk = false := by
  refine ⟨rfl, rfl, ?_, ?_, by decide, by decide, by decide⟩
  · intro p hp
    simp only [checkPassword]
    by_cases h0 : p = ""
    · rw [if_pos h0]; rfl
    · rw [if_neg h0, if_pos hp]; rfl
  · intro p hcl
    simp only [checkPassword]
    by_cases h0 : p = ""
    · rw [if_pos h0]; rfl
    · rw [if_neg h0]
      by_cases h1 : p.utf8ByteSize < 6 ∨ 17 < p.utf8ByteSize
      · rw [if_pos h1]; rfl
      · rw [if_neg h1, if_pos hcl]; rfl

/-- Witness for C6 at concrete inputs: "ab1" violates the length bound and
"aaaaaa" has a single character class, and both are rejected. -/
theorem c6_checkPassword_witness :
    ("ab1".utf8ByteSize < 6 ∨ 17 < "ab1".utf8ByteSize)
  ∧ (checkPassword (some "ab1")).isOk = false
  ∧ (passwordClasses "aaaaaa").length < 2
  ∧ (checkPassword (some "aaaaaa")).isOk = false :=
  ⟨by decide, c6_checkPassword.2.2.1 "ab1" (by decide), by decide,
    c6_checkPassword.2.2.2.1 "aaaaaa" (by decide)⟩

/-! ## Claim C7 — checkName -/

/-- Claim C7: checkName fails exactly when the name is absent, empty, equal
to the reserved administrator name "polariadmin", or contains a character
outside [0-9A-Za-z\-.:_]; it rejects "polariadmin" and "bad user!" and
accepts "svc-user_01". -/
theorem c7_checkName :
    (checkName none).isOk = false
  ∧ (∀ n : String, (checkName (some n)).isOk = true ↔
      (n ≠ "" ∧ n ≠ "polariadmin" ∧ n.toList.all nameCharAllowed = true))
  ∧ (checkName (some "polariadmin")).isOk = false
  ∧ (checkName (some "bad user!")).isOk = false
  ∧ (checkName (some "svc-user_01")).isOk = true := by
  refine ⟨rfl, ?_, by decide, by decide, by decide⟩
  intro n
  simp only [checkName]
  by_cases h0 : n = ""
  · rw [if_pos h0]
    exact iff_of_false (by decide) (fun hc => hc.1 h0)
  · rw [if_neg h0]
    by_cases h1 : n = "polariadmin"
    · rw [if_pos h1]
      exact iff_of_false (by decide) (fun hc => hc.2.1 h1)
    · rw [if_neg h1]
      by_cases h2 : n.toList.all nameCharAllowed = true
      · rw [if_pos h2]
        exact iff_of_true rfl ⟨h0, h1, h2⟩
      · rw [if_neg h2]
        exact iff_of_false (by decide) (fun hc => h2 hc.2.2)

/-- Witness for C7: the acceptance direction of the characterisation at the
concrete name "svc-user_01". -/
theorem c7_checkName_witness :
    (checkName (some "svc-user_01")).isOk = true :=
  (c7_checkName.2.1 "svc-user_01").mpr ⟨by decide, by decide, by decide⟩

/-! ## Claim C1 — reserved-name exclusion on reads -/

/-- Claim C1 is false as stated: a stored row named exactly `polariadmin`
(the reserved administrator name) IS returned by GetUserByIDS — whose SQL
excludes the differently spelled literal `polarisadmin` — and by
GetUsersForCache, whose SQL has no name predicate at all. -/
theorem c1_counterexample :
    GetUserByIDS [polariadminRow] ["u1"] = .ok [fetchRown2User polariadminRow]
  ∧ (fetchRown2User polariadminRow).name = "polariadmin"
  ∧ GetUsersForCache [polariadminRow] 0 true = [fetchRown2User polariadminRow] := by
  refine ⟨rfl, rfl, rfl⟩

/-- Claim C1 amended: GetUser and GetUserByName never return a principal
named `polariadmin`; GetUserByIDS, listUsers and listGroupUsers exclude the
literal `polarisadmin` (with an `s`) instead; GetUsersForCache applies no
reserved-name exclusion at all and returns the full row set on first
update. -/
theorem c1_amended :
    (∀ (db : List UserRow) (id : String) (u : User),
        GetUser db id = .ok (some u) → u.name ≠ "polariadmin")
  ∧ (∀ (db : List UserRow) (name ownerId : String) (u : User),
        GetUserByName db name ownerId = .ok (some u) → u.name ≠ "polariadmin")
  ∧ (∀ (db : List UserRow) (ids : List String) (us : List User) (u : User),
        GetUserByIDS db ids = .ok us → u ∈ us → u.name ≠ "polarisadmin")
  ∧ (∀ (db : List UserRow) (extra : UserRow → Bool) (offset limit : Nat) (u : User),
        u ∈ (listUsers db extra offset limit).2 → u.name ≠ "polarisadmin")
  ∧ (∀ (users : List UserRow) (rels : List GroupRelationRow)
        (extra : GroupRelationRow × UserRow → Bool) (offset limit : Nat) (u : User),
        u ∈ (listGroupUsers users rels extra offset limit).2 → u.name ≠ "polarisadmin")
  ∧ (∀ (db : List UserRow) (watermark : Nat),
        GetUsersForCache db watermark true = db.map fetchRown2User) := by
  refine ⟨?_, ?_, ?_, ?_, ?_, fun db watermark => rfl⟩
  · intro db id u h
    unfold GetUser at h
    split at h
    · simp at h
    · rename_i r rs hf
      simp only [Except.ok.injEq, Option.some.injEq] at h
      have hmem : r ∈ db.filter (getUserWhere id) := by
        rw [hf]; exact List.mem_cons_self r rs
      have hp := (List.mem_filter.mp hmem).2
      unfold getUserWhere at hp
      simp only [Bool.and_eq_true, bne_iff_ne, ne_eq, beq_iff_eq] at hp
      rw [← h]
      exact hp.1.2
  · intro db name ownerId u h
    unfold GetUserByName at h
    split at h
    · simp at h
    · rename_i r rs hf
      simp only [Except.ok.injEq, Option.some.injEq] at h
      have hmem : r ∈ db.filter (getUserByNameWhere name ownerId) := by
        rw [hf]; exact List.mem_cons_self r rs
      have hp := (List.mem_filter.mp hmem).2
      unfold getUserByNameWhere at hp
      simp only [Bool.and_eq_true, bne_iff_ne, ne_eq, beq_iff_eq] at hp
      rw [← h]
      exact hp.1.1.2
  · intro db ids us u h hu
    unfold GetUserByIDS at h
    split at h
    · simp only [Except.ok.injEq] at h
      rw [← h] at hu
      simp at hu
    · simp only [Except.ok.injEq] at h
      rw [← h] at hu
      obtain ⟨r, hr, hru⟩ := List.mem_map.mp hu
      have hp := (List.mem_filter.mp hr).2
      unfold getUserByIDSWhere at hp
      simp only [Bool.and_eq_true, bne_iff_ne, ne_eq, beq_iff_eq] at hp
      rw [← hru]
      exact hp.1.2
  · intro db extra offset limit u hu
    obtain ⟨r, hr, hru⟩ := List.mem_map.mp hu
    have hr2 := mem_of_mem_pagin hr
    rw [mem_sortByMtimeKey] at hr2
    have hp := (List.mem_filter.mp hr2).2
    simp only [Bool.and_eq_true, bne_iff_ne, ne_eq, beq_iff_eq] at hp
    rw [← hru]
    exact hp.1.2
  · intro users rels extra offset limit u hu
    obtain ⟨pr, hr, hru⟩ := List.mem_map.mp hu
    have hr2 := mem_of_mem_pagin hr
    rw [mem_sortByMtimeKey] at hr2
    have hj := (List.mem_filter.mp hr2).1
    obtain ⟨ug, _, hin⟩ := List.mem_flatMap.mp hj
    obtain ⟨urow, hurow, hpair⟩ := List.mem_map.mp hin
    have hp := (List.mem_filter.mp hurow).2
    simp only [Bool.and_eq_true, bne_iff_ne, ne_eq, beq_iff_eq] at hp
    rw [← hru, ← hpair]
    exact hp.2

/-- Witness for C1 amended at a concrete store: an ordinary row is returned
by GetUser and GetUserByIDS with a name that is not the excluded literal. -/
theorem c1_amended_witness :
    (scanBasicUser aliceRow).name ≠ "polariadmin"
  ∧ (fetchRown2User aliceRow).name ≠ "polarisadmin" :=
  ⟨c1_amended.1 [aliceRow] "u2" (scanBasicUser aliceRow) rfl,
    c1_amended.2.2.1 [aliceRow] ["u2"] [fetchRown2User aliceRow]
      (fetchRown2User aliceRow) rfl (by decide)⟩

/-! ## Claim C8 — GetUsersForCache watermark protocol -/

/-- Claim C8: with firstUpdate = true, GetUsersForCache returns the full
row set with no modification-time filter, soft-deleted rows included with
their soft-delete flag visible (valid = false); with firstUpdate = false it
returns exactly the rows whose modification time is ≥ the watermark — the
comparison is inclusive. -/
theorem c8_cache_sync (db : List UserRow) (watermark : Nat) :
    GetUsersForCache db watermark true = db.map fetchRown2User
  ∧ (∀ r ∈ db, r.flag = 1 →
      (fetchRown2User r).valid = false
        ∧ fetchRown2User r ∈ GetUsersForCache db watermark true)
  ∧ GetUsersForCache db watermark false
      = (db.filter (fun r => decide (watermark ≤ r.mtime))).map fetchRown2User
  ∧ (∀ r ∈ db, watermark ≤ r.mtime →
      fetchRown2User r ∈ GetUsersForCache db watermark false) := by
  refine ⟨rfl, ?_, rfl, ?_⟩
  · intro r hr hflag
    constructor
    · simp [fetchRown2User, hflag]
    · exact List.mem_map_of_mem fetchRown2User hr
  · intro r hr hm
    show fetchRown2User r ∈
      (db.filter (fun r => decide (watermark ≤ r.mtime))).map fetchRown2User
    exact List.mem_map_of_mem fetchRown2User
      (List.mem_filter.mpr ⟨hr, by simpa using hm⟩)

/-- Witness for C8 at a concrete store: the tombstoned row is visible to
the first sync with valid = false, and is re-fetched by an incremental sync
whose watermark equals its modification time. -/
theorem c8_cache_sync_witness :
    (fetchRown2User tombstonedRow).valid = false
  ∧ fetchRown2User tombstonedRow ∈ GetUsersForCache [tombstonedRow] 7 true
  ∧ fetchRown2User tombstonedRow ∈ GetUsersForCache [tombstonedRow] 7 false :=
  ⟨((c8_cache_sync [tombstonedRow] 7).2.1 tombstonedRow (by decide) (by decide)).1,
    ((c8_cache_sync [tombstonedRow] 7).2.1 tombstonedRow (by decide) (by decide)).2,
    (c8_cache_sync [tombstonedRow] 7).2.2.2 tombstonedRow (by decide) (by decide)⟩

/-! ## Claim C9 — not-found is success, never an error -/

/-- Claim C9: GetUser and GetUserByName return a nil result with a nil
error when zero rows match, and GetUserByIDS with an empty id list returns
an empty result with a nil error. -/
theorem c9_notfound_is_success :
    (∀ (db : List UserRow) (id : String),
        db.filter (getUserWhere id) = [] → GetUser db id = .ok none)
  ∧ (∀ (db : List UserRow) (name ownerId : String),
        db.filter (getUserByNameWhere name ownerId) = [] →
          GetUserByName db name ownerId = .ok none)
  ∧ (∀ db : List UserRow, GetUserByIDS db [] = .ok []) := by
  refine ⟨?_, ?_, fun db => rfl⟩
  · intro db id h
    unfold GetUser
    rw [h]
  · intro db name ownerId h
    unfold GetUserByName
    rw [h]

/-- Witness for C9: a store holding only a soft-deleted row yields a
zero-row read, which is returned as success. -/
theorem c9_notfound_is_success_witness :
    GetUser [tombstonedRow] "u3" = .ok none
  ∧ GetUserByName [] "alice" "o" = .ok none
  ∧ GetUserByIDS [] [] = .ok [] :=
  ⟨c9_notfound_is_success.1 [tombstonedRow] "u3" (by decide),
    c9_notfound_is_success.2.1 [] "alice" "o" rfl,
    c9_notfound_is_success.2.2 []⟩

/-! ## Claim C10 — GetUsers mutates the caller's filters map -/

/-- Claim C10: when the filters map contains the key "group_id", GetUsers
(via listGroupUsers) mutates the caller's map in place: afterwards the key
"group_id" is gone, the key "ug.group_id" holds the former value, and the
map is not left unchanged. -/
theorem c10_getusers_mutates_filters (filters : Filters) (v : String)
    (h : filters "group_id" = some v) :
    GetUsersFilterEffect filters "group_id" = none
  ∧ GetUsersFilterEffect filters "ug.group_id" = some v
  ∧ GetUsersFilterEffect filters ≠ filters := by
  have hrw : GetUsersFilterEffect filters
      = filtersDelete (filtersInsert filters "ug.group_id" v) GroupIDAttribute := by
    unfold GetUsersFilterEffect listGroupUsersFilterRewrite GroupIDAttribute
    rw [h]
    rfl
  have h1 : GetUsersFilterEffect filters "group_id" = none := by
    rw [hrw]
    unfold GroupIDAttribute filtersDelete
    rw [if_pos rfl]
  refine ⟨h1, ?_, ?_⟩
  · rw [hrw]
    unfold GroupIDAttribute filtersDelete filtersInsert
    rw [if_neg (by decide), if_pos rfl]
  · intro heq
    rw [heq, h] at h1
    exact Option.noConfusion h1

/-- A filters map holding only the key "group_id". -/
def demoFilters : Filters :=
  fun x => if x = "group_id" then some "g1" else none

/-- Witness for C10 at a concrete map holding group_id ↦ g1. -/
theorem c10_getusers_mutates_filters_witness :
    GetUsersFilterEffect demoFilters "group_id" = none
  ∧ GetUsersFilterEffect demoFilters "ug.group_id" = some "g1" :=
  ⟨(c10_getusers_mutates_filters demoFilters "g1" (by decide)).1,
    (c10_getusers_mutates_filters demoFilters "g1" (by decide)).2.1⟩

/-! ## Claim C2 — retry scope of AddUser -/

/-- Claim C2 is false as stated: with one transient failure (hence two
attempts of the retried body), the step trace of AddUser contains the
stale-name reclamation exactly once, not once per attempt —
cleanInValidUser runs sequentially before RetryTransaction and only
u.addUser is the retried body. -/
theorem c2_counterexample :
    addUserTrace 1
      = [AddStep.cleanInValidUser, AddStep.addUserTx, AddStep.addUserTx]
  ∧ (addUserTrace 1).count AddStep.cleanInValidUser = 1
  ∧ ¬ (addUserTrace 1).count AddStep.cleanInValidUser = 2 := by
  refine ⟨rfl, rfl, by decide⟩

/-- Claim C2 amended: retried attempts repeat only the transactional body
u.addUser; the stale-name reclamation step runs exactly once per AddUser
call, before the retry wrapper, whatever the number of transient failures. -/
theorem c2_retry_repeats_body_only (transientFailures : Nat) :
    addUserTrace transientFailures
      = AddStep.cleanInValidUser
          :: List.replicate (transientFailures + 1) AddStep.addUserTx := by
  unfold addUserTrace
  congr 1
  induction transientFailures with
  | zero => rfl
  | succ n ih => simp [retryTransactionTrace, ih, List.replicate_succ]

/-! ## Claim C3 — affected-row check of updateUser -/

/-- The user argument of the update/delete scenarios. -/
def updUser : User :=
  { id := "u1", name := "alice", password := "newpw", owner := "o",
    source := "internal", token := "tk2", comment := "rotated",
    tokenEnable := true }

/-- Claim C3 is false as stated: updateUser discards the UPDATE's driver
result.  Concretely, for an id known to exist from a prior read but whose
row is gone at UPDATE time (concurrent interference), the affected-row
count 0 differs from the expected 1, yet updateUser returns success where
the claimed behaviour (updateUserPerClaim, the spec's words) returns the
AffectedRowsMismatch fault. -/
theorem c3_counterexample :
    updateUser [] updUser = .ok []
  ∧ updateUserPerClaim [] updUser true = .error .affectedRowsNotMatch
  ∧ checkAffectedRows ⟨([] : List UserRow).length⟩ 1 = .error .affectedRowsNotMatch := by
  refine ⟨rfl, rfl, rfl⟩

/-- Claim C3 amended: updateUser never inspects the affected-row count —
the Exec result is discarded unexamined and the AffectedRowsMismatch status
is never produced by it (checkAffectedRows exists in the file but is not
invoked by updateUser); zero rows matching the id-and-flag predicate leaves
the table unchanged and returns success: a no-op, not an error. -/
theorem c3_amended :
    (∀ result : SqlResult, updateUserResultHandling result = .ok ())
  ∧ (∀ (db : List UserRow) (user : User),
        updateUser db user = .ok (db.map (applyUpdateUser user)))
  ∧ (∀ (db : List UserRow) (user : User),
        updateUser db user ≠ .error .affectedRowsNotMatch)
  ∧ (∀ (db : List UserRow) (user : User),
        db.filter (fun r => r.id == user.id && r.flag == 0) = [] →
          updateUser db user = .ok db) := by
  refine ⟨fun result => rfl, fun db user => rfl,
    fun db user hc => Except.noConfusion hc, ?_⟩
  intro db user h
  have hall := List.filter_eq_nil_iff.mp h
  have hfix : ∀ r ∈ db, applyUpdateUser user r = r := by
    intro r hr
    unfold applyUpdateUser
    rw [if_neg]
    intro hc
    exact hall r hr (by simp [hc.1, hc.2])
  show Except.ok (db.map (applyUpdateUser user)) = .ok db
  rw [map_eq_self_of_forall (applyUpdateUser user) db hfix]

/-- Witness for C3 amended: updating against a store whose only row with
this id is soft-deleted matches zero rows and is a successful no-op. -/
theorem c3_amended_witness :
    updateUser [tombstonedRow] updUser = .ok [tombstonedRow] :=
  c3_amended.2.2.2 [tombstonedRow] updUser (by decide)

/-! ## Claim C4 — updateUser mutates no identity field -/

/-- Claim C4: the single UPDATE statement of updateUser changes only
password, token, comment and token_enable; on every row, id, name, owner
and source (and the flag, user type and both timestamps) are unchanged. -/
theorem c4_update_frame (user : User) (r : UserRow) :
    (applyUpdateUser user r).id = r.id
  ∧ (applyUpdateUser user r).name = r.name
  ∧ (applyUpdateUser user r).owner = r.owner
  ∧ (applyUpdateUser user r).source = r.source
  ∧ (applyUpdateUser user r).flag = r.flag
  ∧ (applyUpdateUser user r).userType = r.userType
  ∧ (applyUpdateUser user r).ctime = r.ctime
  ∧ (applyUpdateUser user r).mtime = r.mtime := by
  unfold applyUpdateUser
  split <;> exact ⟨rfl, rfl, rfl, rfl, rfl, rfl, rfl, rfl⟩

/-! ## Claim C5 — delete cascade of the default strategy -/

/-- A second ordinary user row, owner of the deleted-user scenario. -/
def demoUserRow : UserRow :=
  { id := "u1", name := "alice", password := "pw", owner := "o",
    source := "internal", token := "tk", comment := "", flag := 0,
    tokenEnable := 1, userType := 0, ctime := 1, mtime := 1 }

/-- The store state after AddUser("u1") provisioned the default user-kind
strategy (via createDefaultStrategy) and one resource was bound to it. -/
def c5Db : Db :=
  let base : Db :=
    { users := [demoUserRow], groupRelations := [],
      strategies := [], strategyResources := [], principals := [] }
  let db1 := createDefaultStrategy PrincipalType.user "u1" "s1" base
  { db1 with strategyResources := [⟨"s1", "res1"⟩] }

/-- Claim C5 exhibits a code bug: deleting principal "u1" soft-deletes the
user row as claimed, but leaves the user-kind default strategy row, its
resource bindings and its principal bindings fully intact — cleanLinkStrategy
ignores its role argument and matches only the group-kind default-strategy
name — so querying resource bindings by the deterministic user-kind
default-strategy name does NOT return empty. -/
theorem c5_delete_leaves_user_strategy :
    getStrategyResourcesByName (deleteUser "u1" c5Db)
        (buildDefaultStrategyName "u1" PrincipalType.user) = [⟨"s1", "res1"⟩]
  ∧ (deleteUser "u1" c5Db).strategies
      = [⟨"s1", buildDefaultStrategyName "u1" PrincipalType.user, 0⟩]
  ∧ (deleteUser "u1" c5Db).principals = [⟨"s1", "u1", PrincipalType.user⟩]
  ∧ (deleteUser "u1" c5Db).users = [{ demoUserRow with flag := 1 }]
  ∧ getStrategyResourcesByName (deleteUser "u1" c5Db)
        (buildDefaultStrategyName "u1" PrincipalType.user) ≠ [] := by
  refine ⟨rfl, rfl, rfl, by decide, by decide⟩

end Polaris
